import Mathlib

/-!
Shallow embedding of the generation-request orchestrator in
`py/packages/genkit/src/genkit/blocks/generate.py`, together with theorems
checking the specification's claims about it.

Conventions of the embedding:
* Python side effects are made explicit: the mutable nonlocal chunk state of
  `make_chunk` becomes an explicit `ChunkState` threaded through a fold, tool
  executions are recorded in an `executed` trace, and raised exceptions become
  `Except GenErr` results.
* Python truthiness is modelled field by field (`None`/empty-string/empty-list
  are falsy; `max_turns = 0` is falsy and falls back to the default).
* The recursive turn loop is driven by a `fuel` parameter; `GenErr.fuelOut`
  marks exhaustion of the fuel and is unreachable whenever the fuel exceeds
  the effective turn bound, which the turn bound theorems make precise.
* Classes that live outside the two source files of this repository
  (`genkit.core.typing`, `genkit.blocks.model`, `genkit.blocks.middleware`,
  `genkit.blocks.messages`, `genkit.blocks.formats`) are modelled from the
  spec; each such definition carries a doc comment starting with
  `Modelled from the spec:`.
-/

namespace Genkit

/-- Modelled from the spec: message roles (`user`, `model`, `tool`, `system`),
`genkit.core.typing.Role` (not under src/). -/
inductive Role where
  | system
  | user
  | model
  | tool
deriving DecidableEq, Repr

/-- Modelled from the spec: a model's request to invoke a named tool
(name, reference id, input payload); payloads are kept opaque as strings. -/
structure ToolRequestT where
  name : String
  ref : Option String
  input : String
deriving DecidableEq, Repr

/-- Modelled from the spec: a tool's returned output
(name, reference id, output payload). -/
structure ToolResponseT where
  name : String
  ref : Option String
  output : String
deriving DecidableEq, Repr

/-- Modelled from the spec: `Part` is a tagged union - text, media reference,
tool-request, tool-response, or custom/data part. -/
inductive Part where
  | text (text : String)
  | media (url : String)
  | toolRequest (toolRequest : ToolRequestT)
  | toolResponse (toolResponse : ToolResponseT)
  | dataPart (data : String)
deriving DecidableEq, Repr

/-- Modelled from the spec: a `Message` is a role plus an ordered sequence of
parts, immutable once constructed. -/
structure Message where
  role : Role
  content : List Part
deriving DecidableEq, Repr

/-- Modelled from the spec: the per-request instruction policy is a
bool-or-string union (`instructions: bool | str | None` with the `None` case
as the surrounding `Option`). -/
inductive InstrOption where
  | flag (b : Bool)
  | str (s : String)
deriving DecidableEq, Repr

/-- Modelled from the spec: the output configuration of the external request
shape (target format name, JSON schema, constrained flag, content type,
instruction policy); schemas are kept opaque as strings. -/
structure OutputOptions where
  format : Option String
  content_type : Option String
  constrained : Option Bool
  json_schema : Option String
  instructions : Option InstrOption
deriving DecidableEq, Repr

/-- Modelled from the spec: `GenerateActionOptions`, the externally-shaped
generation request: messages, model identifier or none, named tool
identifiers, output configuration, auxiliary documents, max-turns override,
"return tool requests raw" flag, provider config map. -/
structure GenerateActionOptions where
  model : Option String
  messages : List Message
  config : Option (List (String × String))
  tools : List String
  tool_choice : Option String
  output : Option OutputOptions
  docs : List String
  max_turns : Option Nat
  return_tool_requests : Bool
deriving DecidableEq, Repr

/-- Modelled from the spec: the wire `ToolDefinition` - name (de-namespaced),
description, input schema, output schema, and the `originalName` metadata
entry (kept as an optional key-value pair). -/
structure ToolDefinition where
  name : String
  description : String
  input_schema : Option String
  output_schema : Option String
  metadata : Option (String × String)
deriving DecidableEq, Repr

/-- Modelled from the spec: the output configuration of the canonical
`GenerateRequest` shape (content type, wire format, schema, constrained). -/
structure OutputConfig where
  content_type : Option String
  format : Option String
  schema_ : Option String
  constrained : Option Bool
deriving DecidableEq, Repr

/-- Modelled from the spec: `GenerateRequest`, the canonical shape the model
backend consumes - messages, resolved tool definitions, tool-choice policy,
output configuration, docs and provider config. -/
structure GenerateRequest where
  messages : List Message
  config : List (String × String)
  docs : List String
  tools : List ToolDefinition
  tool_choice : Option String
  output : OutputConfig
deriving DecidableEq, Repr

/-- Modelled from the spec: a model response - a single message (the model's
turn) plus finish metadata. -/
structure GenerateResponse where
  message : Message
  finish_reason : Option String
  finish_message : Option String
deriving DecidableEq, Repr

/-- Modelled from the spec: a response chunk is an incremental unit of a model
response's content, carrying a role and partial parts. -/
structure GenerateResponseChunk where
  role : Role
  content : List Part
deriving DecidableEq, Repr

/-- Modelled from the spec: a run context is the caller-provided context map
threaded to middleware and the model (`dict[str, Any]`, kept as a string
association list). -/
def Context : Type := List (String × String)

instance : DecidableEq Context := by
  unfold Context
  infer_instance

/-- The errors the orchestrator can raise.  `configuration` stands for the
`Exception`/`ValueError` raised by `resolve_parameters`, `toolResolution` for
the `RuntimeError` of `resolve_tool_requests`, `aborted` for
`GenerationResponseError` with status tag `ABORTED`, `schemaFailure` for the
spec's schema-validation failure, `noneCrash`/`attrCrash` for Python
`AttributeError` crashes on `None` values, and `fuelOut` for exhaustion of the
embedding's recursion fuel. -/
inductive GenErr where
  | configuration (msg : String)
  | toolResolution (name : String)
  | aborted (max_iters : Nat)
  | schemaFailure
  | noneCrash (name : String)
  | attrCrash (msg : String)
  | fuelOut
deriving DecidableEq, Repr

instance {ε α : Type} [DecidableEq ε] [DecidableEq α] : DecidableEq (Except ε α) :=
  fun a b =>
    match a, b with
    | .error e₁, .error e₂ =>
      if h : e₁ = e₂ then .isTrue (by rw [h]) else .isFalse (by simp [h])
    | .error _, .ok _ => .isFalse (by simp)
    | .ok _, .error _ => .isFalse (by simp)
    | .ok v₁, .ok v₂ =>
      if h : v₁ = v₂ then .isTrue (by rw [h]) else .isFalse (by simp [h])

/-- Modelled from the spec: the formatter produced by instantiating a Format
against a request's schema; it exposes `instructions` and (per spec §6) parse
functions whose presence is what the orchestrator observes. -/
structure FormatterT where
  instructions : Option String
deriving DecidableEq, Repr

/-- Modelled from the spec: a Format's configuration - default-instructions
policy, constrained directive, content-type and wire-format hints. -/
structure FormatConfig where
  default_instructions : Option Bool
  constrained : Option Bool
  content_type : Option String
  format : Option String
deriving DecidableEq, Repr

/-- Modelled from the spec: a `FormatDef` bundles its configuration with the
instantiation function `format_def(schema) -> Formatter`. -/
structure FormatDef where
  config : FormatConfig
  init : Option String → FormatterT

/-- Modelled from the spec: declared capability flags of a model
(`metadata['model']['supports']['context']`); the innermost level. -/
structure ModelSupports where
  context : Bool

/-- Modelled from the spec: the `model` info entry of a model action's
metadata. -/
structure ModelInfo where
  supports : Option ModelSupports

/-- Modelled from the spec: a model action's metadata dictionary, reduced to
the `model` key the orchestrator reads. -/
structure ModelMeta where
  model : Option ModelInfo

/-- The output of one pass through the middleware dispatch chain: the chunks
streamed while it ran, the response, and the trace of requests that actually
reached the model backend at the end of the chain. -/
structure DispatchOut where
  chunks : List GenerateResponseChunk
  resp : GenerateResponse
  calls : List GenerateRequest

/-- Modelled from the spec: an executable model handle -
`invoke(input, context, on_chunk?) -> response` with static capability
metadata.  `run` receives the request, the context and whether a streaming
callback is attached, and yields the streamed chunks plus the response. -/
structure ModelAction where
  name : String
  metadata : Option ModelMeta
  run : GenerateRequest → Option Context → Bool → List GenerateResponseChunk × GenerateResponse

/-- Modelled from the spec: an executable tool handle - `arun_raw(input)`
returning the raw output; payloads are opaque strings. -/
structure ToolAction where
  name : String
  description : String
  input_schema : Option String
  output_schema : Option String
  run : String → String

/-- Modelled from the spec: a middleware receives the request, the context and
a `next` continuation, and either calls the continuation (possibly with a
modified request or context) or short-circuits with its own output. -/
def ModelMiddleware : Type :=
  GenerateRequest → Option Context →
    (GenerateRequest → Option Context → DispatchOut) → DispatchOut

/-- Modelled from the spec: the name-to-action registry - `lookup(kind, name)`
for models and tools, `lookup_value('format', name)` for formats, plus the
process-wide default model. -/
structure Registry where
  default_model : Option String
  models : List (String × ModelAction)
  tools : List (String × ToolAction)
  formats : List (String × FormatDef)

/-- Modelled from the spec: the environment seen by the orchestrator - the
registry and the schema validator used by the terminal
`assert_valid_schema` check (`genkit.blocks.model`, not under src/), which
validates a message against the declared output schema. -/
structure Env where
  registry : Registry
  validateSchema : Option String → Message → Bool

/-- The default turn bound (`DEFAULT_MAX_TURNS = 5`). -/
def DEFAULT_MAX_TURNS : Nat := 5

/-- The characters of a string strictly after its last `/`; embeds
`original_name[original_name.rfind('/') + 1 :]`. -/
def after_last_slash (s : String) : String :=
  String.mk (s.toList.foldl (fun acc c => if c = '/' then [] else acc ++ [c]) [])

/-- Embeds `to_tool_definition` (generate.py lines 464-490): the wire name is
de-namespaced to the final path segment, and when that changes the name the
original is preserved under the `originalName` metadata key. -/
def to_tool_definition (tool : ToolAction) : ToolDefinition :=
  let original_name := tool.name
  let name := if original_name.toList.contains '/' then after_last_slash original_name
              else original_name
  let metadata := if original_name ≠ name then some ("originalName", original_name) else none
  { name := name
    description := tool.description
    input_schema := tool.input_schema
    output_schema := tool.output_schema
    metadata := metadata }

/-- Embeds `resolve_tool` (generate.py lines 535-548): a plain registry
lookup, returning `none` when the tool is unknown. -/
def resolve_tool (env : Env) (tool_name : String) : Option ToolAction :=
  env.registry.tools.lookup tool_name

/-- Embeds the tool loop of `resolve_tool_requests` (generate.py lines
516-530), with the executed tool invocations made explicit: for each
tool-request in order, fail if its name is not a key of `tool_dict`, crash if
the key maps to `None`, otherwise run the tool and collect a tool-response
part preserving the request's name and ref. -/
def tool_loop (tool_dict : List (String × Option ToolAction)) :
    List ToolRequestT → List (String × String) × Except GenErr (List Part)
  | [] => ([], .ok [])
  | tr :: rest =>
    match tool_dict.lookup tr.name with
    | none => ([], .error (.toolResolution tr.name))
    | some none => ([], .error (.noneCrash tr.name))
    | some (some tool) =>
      let output := tool.run tr.input
      let next := tool_loop tool_dict rest
      ((tr.name, tr.input) :: next.1,
       match next.2 with
       | .error e => .error e
       | .ok parts =>
         .ok (Part.toolResponse { name := tr.name, ref := tr.ref, output := output } :: parts))

/-- The tool-request payloads of a part, for `x.root.tool_request`
filtering. -/
def get_tool_request : Part → Option ToolRequestT
  | .toolRequest tr => some tr
  | _ => none

/-- Whether a part is a tool-request part. -/
def is_tool_request : Part → Bool
  | .toolRequest _ => true
  | _ => false

/-- The outcome of `resolve_tool_requests`: the trace of tools actually
executed (Python side effects that happen even when a later lookup raises)
and the returned triple or the raised error. -/
structure ToolLoopOut where
  executed : List (String × String)
  result : Except GenErr (Option Message × Message × Option GenerateActionOptions)

/-- Embeds `resolve_tool_requests` (generate.py lines 493-532): extract the
tool-request parts of the model message, build the name-to-tool dict from the
request's registered tool names, execute the loop, and produce the `tool`
message of collected response parts (the revised-message and
transfer-preamble slots are `None` in the source). -/
def resolve_tool_requests (env : Env) (request : GenerateActionOptions) (message : Message) :
    ToolLoopOut :=
  let tool_requests := message.content.filterMap get_tool_request
  let tool_dict := request.tools.map (fun n => (n, resolve_tool env n))
  let looped := tool_loop tool_dict tool_requests
  { executed := looped.1
    result :=
      match looped.2 with
      | .error e => .error e
      | .ok parts => .ok (none, { role := Role.tool, content := parts }, none) }

/-- Embeds `resolve_parameters` (generate.py lines 384-423): resolve the model
name (request override, else the process default; empty or missing is a
configuration error), each requested tool name, and the optional output
format name. -/
def resolve_tools_list (env : Env) : List String → Except GenErr (List ToolAction)
  | [] => .ok []
  | n :: rest =>
    match env.registry.tools.lookup n with
    | none => .error (.configuration ("Unable to resolve tool " ++ n))
    | some t =>
      match resolve_tools_list env rest with
      | .error e => .error e
      | .ok ts => .ok (t :: ts)

/-- Embeds `resolve_parameters` (generate.py lines 384-423). -/
def resolve_parameters (env : Env) (request : GenerateActionOptions) :
    Except GenErr (ModelAction × List ToolAction × Option FormatDef) :=
  let model_name := match request.model with
    | some m => some m
    | none => env.registry.default_model
  match model_name with
  | none => .error (.configuration "No model configured.")
  | some mn =>
    if mn = "" then .error (.configuration "No model configured.")
    else
      match env.registry.models.lookup mn with
      | none => .error (.configuration ("Failed to to resolve model " ++ mn))
      | some model_action =>
        match resolve_tools_list env request.tools with
        | .error e => .error e
        | .ok tools =>
          match request.output with
          | none => .ok (model_action, tools, none)
          | some o =>
            match o.format with
            | none => .ok (model_action, tools, none)
            | some f =>
              if f = "" then .ok (model_action, tools, none)
              else
                match env.registry.formats.lookup f with
                | none => .error (.configuration ("Unable to resolve format " ++ f))
                | some fd => .ok (model_action, tools, some fd)

/-- Python truthiness of the `instructions` option: `None` and `False` and the
empty string are falsy. -/
def instr_truthy : Option InstrOption → Bool
  | none => false
  | some (.flag b) => b
  | some (.str s) => s != ""

/-- Embeds `resolve_instructions` (generate.py lines 329-350): an explicit
string wins, explicit `False` disables, otherwise fall back to the
formatter's instructions. -/
def resolve_instructions (formatter : Option FormatterT) (instructions_opt : Option InstrOption) :
    Option String :=
  match instructions_opt with
  | some (.str s) => some s
  | some (.flag false) => none
  | _ =>
    match formatter with
    | none => none
    | some f => f.instructions

/-- Modelled from the spec: `inject_instructions` (genkit.blocks.messages, not
under src/).  The spec (§4.2) only says instructions are injected into the
message sequence; injection is modelled as appending a user message carrying
the instruction text, and no change when there are none. -/
def inject_instructions (messages : List Message) (instructions : Option String) : List Message :=
  match instructions with
  | none => messages
  | some s => messages ++ [{ role := Role.user, content := [Part.text s] }]

/-- Embeds `apply_format` (generate.py lines 288-326).  With no format the
request passes through.  Otherwise the request is deep-copied (value
semantics here), the formatter is instantiated against the request's JSON
schema, instructions are resolved and conditionally injected - the injection
condition reproduces the Python parse
`(A or B) if raw_request.output else False` of lines 306-310 - and the
output directives are applied: the Format's `constrained` first, then the
request's explicit `constrained` on top of it, then the Format's content type
and wire format unconditionally when set.  When the request has no output
config, lines 316-319 dereference `None` and crash. -/
def apply_format (raw_request : GenerateActionOptions) (format_def : Option FormatDef) :
    Except GenErr (GenerateActionOptions × Option FormatterT) :=
  match format_def with
  | none => .ok (raw_request, none)
  | some fd =>
    let out_request := raw_request
    let formatter := fd.init (match raw_request.output with
      | some o => o.json_schema
      | none => none)
    let instructions := resolve_instructions (some formatter)
      (match raw_request.output with
       | some o => o.instructions
       | none => none)
    let out_request :=
      if (match raw_request.output with
          | some o => (fd.config.default_instructions != some false) || instr_truthy o.instructions
          | none => false)
      then { out_request with messages := inject_instructions out_request.messages instructions }
      else out_request
    match raw_request.output with
    | none => .error (.attrCrash "NoneType has no attribute constrained")
    | some o =>
      let oc := o
      let oc := if fd.config.constrained ≠ none then { oc with constrained := fd.config.constrained }
                else oc
      let oc := if o.constrained ≠ none then { oc with constrained := o.constrained } else oc
      let oc := if fd.config.content_type ≠ none then
                  { oc with content_type := fd.config.content_type }
                else oc
      let oc := if fd.config.format ≠ none then { oc with format := fd.config.format } else oc
      .ok ({ out_request with output := some oc }, some formatter)

/-- Embeds `apply_transfer_preamble` (generate.py lines 353-368): a stub that
returns the next request unchanged. -/
def apply_transfer_preamble (next_request : GenerateActionOptions)
    (_preamble : Option GenerateActionOptions) : GenerateActionOptions :=
  next_request

/-- Embeds `action_to_generate_request` (generate.py lines 426-461): messages
pass through, config defaults to the empty map, resolved tools become wire
tool definitions, and the output configuration is copied field by field. -/
def action_to_generate_request (options : GenerateActionOptions)
    (resolved_tools : List ToolAction) (_model : ModelAction) : GenerateRequest :=
  let tool_defs := resolved_tools.map to_tool_definition
  { messages := options.messages
    config := (options.config).getD []
    docs := options.docs
    tools := tool_defs
    tool_choice := options.tool_choice
    output :=
      { content_type := match options.output with
          | some o => o.content_type
          | none => none
        format := match options.output with
          | some o => o.format
          | none => none
        schema_ := match options.output with
          | some o => o.json_schema
          | none => none
        constrained := match options.output with
          | some o => o.constrained
          | none => none } }

/-- Modelled from the spec: the chunk delivered to the caller's streaming
callback (`GenerateResponseChunkWrapper`, genkit.blocks.model, not under
src/) - per §4.5 it bundles the role, the content, the positional index, the
snapshot of previously emitted chunks, and whether a chunk-level
formatter-parse function is bound. -/
structure GenerateResponseChunkWrapper where
  role : Role
  content : List Part
  index : Nat
  previous_chunks : List GenerateResponseChunk
  parserPresent : Bool
deriving DecidableEq, Repr

/-- The mutable nonlocal state of `make_chunk` (generate.py lines 89-91):
the last-seen role, the running message index, and the accumulated chunk
history of the current `generate_action` invocation. -/
structure ChunkState where
  chunk_role : Role
  message_index : Nat
  prev_chunks : List GenerateResponseChunk
deriving DecidableEq, Repr

/-- Embeds `make_chunk` (generate.py lines 93-128): increment the message
index when the role changes and at least one chunk was already emitted,
record the role, snapshot the current history into the emitted chunk, then
append the new chunk to the history. -/
def make_chunk (parserPresent : Bool) (st : ChunkState) (role : Role)
    (chunk : GenerateResponseChunk) : ChunkState × GenerateResponseChunkWrapper :=
  let message_index :=
    if role ≠ st.chunk_role ∧ 0 < st.prev_chunks.length then st.message_index + 1
    else st.message_index
  let prev_to_send := st.prev_chunks
  ({ chunk_role := role, message_index := message_index, prev_chunks := st.prev_chunks ++ [chunk] },
   { role := role
     content := chunk.content
     index := message_index
     previous_chunks := prev_to_send
     parserPresent := parserPresent })

/-- `make_chunk` folded over a sequence of (role, chunk) events, yielding the
final state and the emitted wrapped chunks in order. -/
def run_chunks (parserPresent : Bool) :
    ChunkState → List (Role × GenerateResponseChunk) →
      ChunkState × List GenerateResponseChunkWrapper
  | st, [] => (st, [])
  | st, (r, c) :: rest =>
    let step := make_chunk parserPresent st r c
    let next := run_chunks parserPresent step.1 rest
    (next.1, step.2 :: next.2)

/-- Modelled from the spec: `augment_with_context` (genkit.blocks.middleware,
not under src/) is the context-injection middleware; per §4.4 it injects the
request's auxiliary documents as context before the model call, modelled as
appending a user message built from the request's docs. -/
def augment_with_context : ModelMiddleware :=
  fun req ctx next =>
    next { req with messages := req.messages ++ [{ role := Role.user, content := req.docs.map Part.text }] } ctx

/-- Whether the resolved model declares native context support; embeds the
truthiness chain
`model.metadata and model.metadata.get('model') and
model.metadata.get('model').get('supports') and
model.metadata.get('model').get('supports').get('context')`
(generate.py lines 146-151). -/
def supports_context (model : ModelAction) : Bool :=
  match model.metadata with
  | none => false
  | some md =>
    match md.model with
    | none => false
    | some mi =>
      match mi.supports with
      | none => false
      | some s => s.context

/-- Embeds the middleware setup of generate.py lines 143-154 at the level of
the local `middleware` variable: a missing (`None`) or empty caller list is
replaced by a fresh empty list, and when the request carries docs and the
model lacks native context support, the context-injection middleware is
appended to the end of the chain. -/
def effective_middleware (middleware : Option (List ModelMiddleware)) (docs : List String)
    (supports : Bool) : List ModelMiddleware :=
  let m := middleware.getD []
  if !docs.isEmpty && !supports then m ++ [augment_with_context] else m

/-- Embeds the same lines 143-154 at the level of the caller-visible list
object: `if not middleware: middleware = []` rebinds the local name to a
fresh list when the caller's value is `None` or an empty list (so the
caller's object is untouched), while `middleware.append(...)` mutates the
caller's own non-empty list in place. -/
def caller_middleware_after (middleware : Option (List ModelMiddleware)) (docs : List String)
    (supports : Bool) : Option (List ModelMiddleware) :=
  match middleware with
  | none => none
  | some l =>
    if l.isEmpty then some l
    else if !docs.isEmpty && !supports then some (l ++ [augment_with_context])
    else some l

/-- Embeds `dispatch` (generate.py lines 156-197): walk the middleware chain
in order, each middleware receiving the current request, the context and the
next continuation; at the end of the chain invoke the model backend, which
also records the request it actually received in `calls`. -/
def dispatch (model : ModelAction) (streaming : Bool) :
    List ModelMiddleware → GenerateRequest → Option Context → DispatchOut
  | [], req, ctx =>
    let r := model.run req ctx streaming
    { chunks := r.1, resp := r.2, calls := [req] }
  | mw :: rest, req, ctx =>
    mw req ctx (fun modified_req modified_ctx => dispatch model streaming rest modified_req modified_ctx)

/-- Modelled from the spec: `GenerateResponseWrapper` (genkit.blocks.model,
not under src/): the final response - the model's message, finish metadata,
the request it answered, and whether a formatter-bound message parser is
attached (the spec's "formatter-parsed equivalent" accessor). -/
structure GenerateResponseWrapper where
  message : Message
  finish_reason : Option String
  finish_message : Option String
  request : GenerateRequest
  parserPresent : Bool
deriving DecidableEq, Repr

/-- Wraps a model response (generate.py lines 210-214). -/
def mk_response_wrapper (resp : GenerateResponse) (request : GenerateRequest)
    (parserPresent : Bool) : GenerateResponseWrapper :=
  { message := resp.message
    finish_reason := resp.finish_reason
    finish_message := resp.finish_message
    request := request
    parserPresent := parserPresent }

/-- Embeds `max_iters` (generate.py lines 226-228):
`raw_request.max_turns if raw_request.max_turns else DEFAULT_MAX_TURNS`,
where a missing or zero override is falsy. -/
def effective_max_turns (raw_request : GenerateActionOptions) : Nat :=
  match raw_request.max_turns with
  | some n => if n ≠ 0 then n else DEFAULT_MAX_TURNS
  | none => DEFAULT_MAX_TURNS

/-- What one turn decides: a terminal outcome, or the arguments of the
recursive continuation (next request, next message index, next turn count)
per generate.py lines 277-285. -/
inductive TurnNext where
  | done (result : Except GenErr GenerateResponseWrapper)
  | next (req : GenerateActionOptions) (message_index : Nat) (current_turn : Nat)

/-- One record per pass through the middleware dispatch chain (one model
invocation of the turn controller): the chain it was dispatched with and the
context it was given. -/
structure TurnRec where
  mws : List ModelMiddleware
  ctx : Option Context

/-- Embeds the post-reply tail of `generate_action` (generate.py lines
216-285): collect the tool requests of the reply; return (validating the
output schema when there are no tool requests) when terminal; abort when the
turn count would exceed the bound; otherwise resolve and execute the tools,
honour a revised (interrupt) message, stream the tool message when a
callback is attached, and assemble the next request by appending the model
message and the tool message. -/
def turn_decision (env : Env) (raw_request : GenerateActionOptions) (has_on_chunk : Bool)
    (parserPresent : Bool) (request : GenerateRequest) (response : GenerateResponseWrapper)
    (st1 : ChunkState) (current_turn : Nat) :
    TurnNext × List GenerateResponseChunkWrapper :=
  let generated_msg := response.message
  let tool_requests := generated_msg.content.filter is_tool_request
  if raw_request.return_tool_requests || tool_requests.isEmpty then
    if tool_requests.isEmpty && !(env.validateSchema request.output.schema_ generated_msg) then
      (.done (.error .schemaFailure), [])
    else
      (.done (.ok response), [])
  else if current_turn + 1 > effective_max_turns raw_request then
    (.done (.error (.aborted (effective_max_turns raw_request))), [])
  else
    let resolved := resolve_tool_requests env raw_request generated_msg
    match resolved.result with
    | .error e => (.done (.error e), [])
    | .ok (revised_model_msg, tool_msg, transfer_preamble) =>
      match revised_model_msg with
      | some revised =>
        (.done (.ok { response with
            message := revised
            finish_reason := some "interrupted"
            finish_message := some "One or more tool calls resulted in interrupts." }), [])
      | none =>
        let streamed :=
          if has_on_chunk then
            let mc := make_chunk parserPresent st1 Role.tool
              { role := tool_msg.role, content := tool_msg.content }
            (mc.1, [mc.2])
          else (st1, [])
        let next_request := { raw_request with
          messages := raw_request.messages ++ [generated_msg, tool_msg] }
        let next_request := apply_transfer_preamble next_request transfer_preamble
        (.next next_request (streamed.1.message_index + 1) (current_turn + 1), streamed.2)

/-- The observable outcome of one turn: the decision, the dispatch records,
the requests that reached the model backend, the chunks emitted to the
streaming callback, the model's reply and the normalized request (the last
two exposed for stating properties about the turn). -/
structure TurnOut where
  step : TurnNext
  recs : List TurnRec
  model_calls : List GenerateRequest
  emitted : List GenerateResponseChunkWrapper
  reply : Option Message
  built_request : Option GenerateRequest

/-- Embeds one invocation of `generate_action` (generate.py lines 56-285)
up to the recursive call: resolve parameters, apply the format, normalize
the request, set up the middleware chain, dispatch through it to the model
(streaming chunks through `make_chunk` when a callback is attached), wrap
the response, and run the terminal/continuation decision. -/
def generate_turn (env : Env) (raw_request : GenerateActionOptions) (has_on_chunk : Bool)
    (message_index : Nat) (current_turn : Nat)
    (middleware : Option (List ModelMiddleware)) (context : Option Context) : TurnOut :=
  match resolve_parameters env raw_request with
  | .error e =>
    { step := .done (.error e), recs := [], model_calls := [], emitted := []
      reply := none, built_request := none }
  | .ok (model, tools, format_def) =>
    match apply_format raw_request format_def with
    | .error e =>
      { step := .done (.error e), recs := [], model_calls := [], emitted := []
        reply := none, built_request := none }
    | .ok (raw_request, formatter) =>
      let request := action_to_generate_request raw_request tools model
      let st0 : ChunkState :=
        { chunk_role := Role.model, message_index := message_index, prev_chunks := [] }
      let mws := effective_middleware middleware raw_request.docs (supports_context model)
      let d := dispatch model has_on_chunk mws request context
      let streamed :=
        if has_on_chunk then
          run_chunks formatter.isSome st0 (d.chunks.map (fun c => (Role.model, c)))
        else (st0, [])
      let response := mk_response_wrapper d.resp request formatter.isSome
      let decision := turn_decision env raw_request has_on_chunk formatter.isSome request response
        streamed.1 current_turn
      { step := decision.1
        recs := [{ mws := mws, ctx := context }]
        model_calls := d.calls
        emitted := streamed.2 ++ decision.2
        reply := some response.message
        built_request := some request }

/-- The observable outcome of a whole `generate_action` call: the final
result, the dispatch records of all turns, the requests that reached the
model backend, and all chunks emitted to the streaming callback, in order. -/
structure GenOut where
  result : Except GenErr GenerateResponseWrapper
  turns : List TurnRec
  model_calls : List GenerateRequest
  emitted : List GenerateResponseChunkWrapper

/-- Embeds `generate_action` (generate.py lines 56-285): run one turn and,
when it continues, recurse on the next request with the turn count and the
message index advanced - passing, as the source does, neither the middleware
list (it is commented out at line 281) nor the context.  `fuel` bounds the
recursion depth of the embedding. -/
def generate_action (env : Env) :
    Nat → GenerateActionOptions → Bool → Nat → Nat →
      Option (List ModelMiddleware) → Option Context → GenOut
  | 0, _, _, _, _, _, _ =>
    { result := .error .fuelOut, turns := [], model_calls := [], emitted := [] }
  | fuel + 1, raw_request, has_on_chunk, message_index, current_turn, middleware, context =>
    let t := generate_turn env raw_request has_on_chunk message_index current_turn
      middleware context
    match t.step with
    | .done r =>
      { result := r, turns := t.recs, model_calls := t.model_calls, emitted := t.emitted }
    | .next next_request next_index next_turn =>
      let rest := generate_action env fuel next_request has_on_chunk next_index next_turn
        none none
      { result := rest.result
        turns := t.recs ++ rest.turns
        model_calls := t.model_calls ++ rest.model_calls
        emitted := t.emitted ++ rest.emitted }

/-- Whether a result is the turn-bound abort
(`GenerationResponseError` with status `ABORTED`). -/
def is_aborted : Except GenErr GenerateResponseWrapper → Bool
  | .error (.aborted _) => true
  | _ => false

/-! Concrete environments used by the witnesses and counterexamples. -/

/-- A plain user message. -/
def user_msg : Message := { role := Role.user, content := [Part.text "hi"] }

/-- A tool-request part for tool `t`. -/
def tr_part : Part := Part.toolRequest { name := "t", ref := none, input := "in" }

/-- A model reply that requests tool `t`. -/
def tool_reply : Message := { role := Role.model, content := [tr_part] }

/-- A model reply with plain text and no tool requests. -/
def text_reply : Message := { role := Role.model, content := [Part.text "done"] }

/-- A registered tool named `t`. -/
def simple_tool : ToolAction :=
  { name := "t", description := "", input_schema := none, output_schema := none
    run := fun _ => "out" }

/-- A model that always requests tool `t` and streams nothing. -/
def loop_model : ModelAction :=
  { name := "m", metadata := none
    run := fun _ _ _ =>
      ([], { message := tool_reply, finish_reason := some "stop", finish_message := none }) }

/-- A model that terminates immediately with a text reply. -/
def plain_model : ModelAction :=
  { name := "m", metadata := none
    run := fun _ _ _ =>
      ([], { message := text_reply, finish_reason := some "stop", finish_message := none }) }

/-- Model chunks used by the streaming scenarios. -/
def chunk_a : GenerateResponseChunk := { role := Role.model, content := [Part.text "a"] }

/-- Second model chunk. -/
def chunk_b : GenerateResponseChunk := { role := Role.model, content := [Part.text "b"] }

/-- Model chunk of the second turn. -/
def chunk_d : GenerateResponseChunk := { role := Role.model, content := [Part.text "d"] }

/-- A model that streams two chunks and requests tool `t` on the first turn
(one message in the request), then streams one chunk and finishes on the
second. -/
def stream_model : ModelAction :=
  { name := "m", metadata := none
    run := fun req _ _ =>
      if req.messages.length ≤ 1 then
        ([chunk_a, chunk_b],
         { message := tool_reply, finish_reason := some "stop", finish_message := none })
      else
        ([chunk_d],
         { message := text_reply, finish_reason := some "stop", finish_message := none }) }

/-- A model that streams one chunk and requests tool `t` on the first turn,
requests tool `t` again while streaming nothing on the second, and finishes
(still streaming nothing) on the third. -/
def gap_model : ModelAction :=
  { name := "m", metadata := none
    run := fun req _ _ =>
      if req.messages.length ≤ 1 then
        ([chunk_a],
         { message := tool_reply, finish_reason := some "stop", finish_message := none })
      else if req.messages.length ≤ 3 then
        ([], { message := tool_reply, finish_reason := some "stop", finish_message := none })
      else
        ([], { message := text_reply, finish_reason := some "stop", finish_message := none }) }

/-- An environment with one model `m` and one tool `t`. -/
def mk_env (m : ModelAction) : Env :=
  { registry :=
      { default_model := none
        models := [("m", m)]
        tools := [("t", simple_tool)]
        formats := [] }
    validateSchema := fun _ _ => true }

/-- The base request: model `m`, one user message, tool `t`. -/
def raw_base : GenerateActionOptions :=
  { model := some "m", messages := [user_msg], config := none, tools := ["t"]
    tool_choice := none, output := none, docs := [], max_turns := none
    return_tool_requests := false }

/-- The tool whose registered name carries a plugin namespace. -/
def namespaced_tool : ToolAction :=
  { name := "mathPlugin/add", description := "adds", input_schema := none
    output_schema := none, run := fun s => s }

/-- An environment registering `mathPlugin/add` under its full name. -/
def ns_env : Env :=
  { registry :=
      { default_model := none
        models := [("m", plain_model)]
        tools := [("mathPlugin/add", namespaced_tool)]
        formats := [] }
    validateSchema := fun _ _ => true }

/-- A request listing the namespaced tool. -/
def ns_request : GenerateActionOptions := { raw_base with tools := ["mathPlugin/add"] }

/-- A model reply that uses the de-namespaced wire name `add`. -/
def ns_reply : Message :=
  { role := Role.model
    content := [Part.toolRequest { name := "add", ref := none, input := "1" }] }

/-- A Format whose directives conflict with the request's explicit output
configuration. -/
def conflict_fd : FormatDef :=
  { config :=
      { default_instructions := some false, constrained := some true
        content_type := some "application/json", format := some "json" }
    init := fun _ => { instructions := none } }

/-- The explicit output configuration conflicting with `conflict_fd`. -/
def conflict_output : OutputOptions :=
  { format := some "json", content_type := some "text/plain"
    constrained := some false, json_schema := none, instructions := none }

/-- A request with explicit `constrained = false` and `content_type`
`text/plain`. -/
def conflict_request : GenerateActionOptions :=
  { raw_base with output := some conflict_output }

/-- The marker message appended by the caller-supplied middleware. -/
def marker_msg : Message := { role := Role.user, content := [Part.text "marker"] }

/-- A caller middleware that tags the request with `marker_msg` and passes it
on. -/
def marker_mw : ModelMiddleware :=
  fun req ctx next => next { req with messages := req.messages ++ [marker_msg] } ctx

/-- A pass-through caller middleware. -/
def pass_mw : ModelMiddleware := fun req ctx next => next req ctx

/-- A request carrying one auxiliary document. -/
def doc_request : GenerateActionOptions := { raw_base with tools := [], docs := ["d"] }

/-- The environment for the doc-carrying scenarios: a model with no declared
context support. -/
def doc_env : Env :=
  { registry :=
      { default_model := none, models := [("m", plain_model)], tools := []
        formats := [] }
    validateSchema := fun _ _ => true }

/-- The context message the modelled `augment_with_context` injects for
`doc_request`. -/
def ctx_msg : Message := { role := Role.user, content := [Part.text "d"] }

/-- The two-turn doc-carrying request for the continuation claims. -/
def loop_doc_request : GenerateActionOptions := { raw_base with docs := ["d"], max_turns := some 1 }

/-! Counterexamples and concrete evaluations. -/

/-- C1, counterexample: with `max_turns = 1` and a model whose replies always
request a tool, `generate_action` does not abort immediately after the first
reply - it performs a second model invocation (two dispatches in total) and
only then raises the `ABORTED` failure, so "at most `N` model invocations"
is violated at `N = 1`. -/
theorem c1_counterexample :
    (generate_action (mk_env loop_model) 10 { raw_base with max_turns := some 1 }
        false 0 0 none none).turns.length = 2 ∧
    is_aborted (generate_action (mk_env loop_model) 10 { raw_base with max_turns := some 1 }
        false 0 0 none none).result = true ∧
    effective_max_turns { raw_base with max_turns := some 1 } = 1 := by
  refine ⟨by decide, by decide, by decide⟩

/-- C2, evaluation at the failing input: the tool registered as
`mathPlugin/add` is exposed to the model as `add` with
`metadata.originalName = "mathPlugin/add"`, but when the model's reply uses
that exposed short name, `resolve_tool_requests` raises its not-found error
instead of matching the registration by original name, and executes no
tool. -/
theorem c2_roundtrip_failure :
    to_tool_definition namespaced_tool =
      { name := "add", description := "adds", input_schema := none, output_schema := none
        metadata := some ("originalName", "mathPlugin/add") } ∧
    (resolve_tool_requests ns_env ns_request ns_reply).result =
      .error (.toolResolution "add") ∧
    (resolve_tool_requests ns_env ns_request ns_reply).executed = [] := by
  refine ⟨by decide, by decide, by decide⟩

/-- C3, counterexample: in an exchange whose second turn streams no model
chunk, the tool chunk of the first turn and the tool chunk of the second are
consecutive chunks of the same role whose indices differ (1 then 2), so the
index does increment between two consecutive same-role chunks. -/
theorem c3_counterexample :
    (generate_action (mk_env gap_model) 10 raw_base true 0 0 none none).emitted.map
        (fun c => (c.role, c.index)) =
      [(Role.model, 0), (Role.tool, 1), (Role.tool, 2)] ∧
    ((generate_action (mk_env gap_model) 10 raw_base true 0 0 none none).emitted.get? 1).map
        (fun c => (c.role, c.index)) = some (Role.tool, 1) ∧
    ((generate_action (mk_env gap_model) 10 raw_base true 0 0 none none).emitted.get? 2).map
        (fun c => (c.role, c.index)) = some (Role.tool, 2) := by
  refine ⟨by decide, by decide, by decide⟩

/-- C4, counterexample: with a Format whose `content_type` directive is
`application/json` and a request explicitly setting `text/plain`, the
normalized output carries the Format's `application/json` - the explicit
request value does not win for the content type (while `constrained = false`
from the request does win). -/
theorem c4_counterexample :
    ((apply_format conflict_request (some conflict_fd)).toOption.bind (fun p => p.1.output)).map
        (fun o => (o.content_type, o.constrained)) =
      some (some "application/json", some false) ∧
    ¬ ((apply_format conflict_request (some conflict_fd)).toOption.bind (fun p => p.1.output)).map
        (fun o => (o.content_type, o.constrained)) =
      some (some "text/plain", some false) := by
  refine ⟨by decide, by decide⟩

/-- C5, counterexample: with one caller middleware that tags the request and
a doc-carrying request to a model without native context support, the model
receives the caller's marker before the injected context message - the
context-injection middleware ran after the caller middleware, so it was
appended, not prepended. -/
theorem c5_counterexample :
    (generate_action doc_env 10 doc_request false 0 0 (some [marker_mw]) none).model_calls.map
        (fun r => r.messages) = [[user_msg, marker_msg, ctx_msg]] ∧
    ¬ (generate_action doc_env 10 doc_request false 0 0 (some [marker_mw]) none).model_calls.map
        (fun r => r.messages) = [[user_msg, ctx_msg, marker_msg]] := by
  refine ⟨by decide, by decide⟩

/-- C8, counterexample: in the two-turn streaming exchange, the chunk emitted
on the second turn carries an empty previous-chunks snapshot even though
three chunks were emitted on the first turn - the history does not persist
across turns. -/
theorem c8_counterexample :
    (generate_action (mk_env stream_model) 10 raw_base true 0 0 none none).emitted.map
        (fun c => c.previous_chunks.length) = [0, 1, 2, 0] ∧
    ¬ ((generate_action (mk_env stream_model) 10 raw_base true 0 0 none none).emitted.get? 3).map
        (fun c => c.previous_chunks.length) = some 3 := by
  refine ⟨by decide, by decide⟩

/-- C9, counterexample: when the request carries docs and the model lacks
native context support, the second turn's dispatch chain is not empty - the
continuation re-appends the context-injection middleware, so the chain has
length 1. -/
theorem c9_counterexample :
    ((generate_action (mk_env loop_model) 10 loop_doc_request false 0 0 (some [pass_mw])
        (some ([] : Context))).turns.drop 1).map (fun r => r.mws.length) = [1] ∧
    ¬ ((generate_action (mk_env loop_model) 10 loop_doc_request false 0 0 (some [pass_mw])
        (some ([] : Context))).turns.drop 1).map (fun r => r.mws.length) = [0] := by
  refine ⟨by decide, by decide⟩

/-! General lemmas about `apply_format` and `resolve_parameters`. -/

/-- `apply_format` only rewrites the messages and the output configuration:
every other field of the request is preserved. -/
theorem apply_format_fields (raw : GenerateActionOptions) (fd : Option FormatDef)
    (out : GenerateActionOptions) (f : Option FormatterT)
    (h : apply_format raw fd = .ok (out, f)) :
    out.max_turns = raw.max_turns ∧ out.docs = raw.docs ∧ out.tools = raw.tools ∧
      out.return_tool_requests = raw.return_tool_requests ∧ out.model = raw.model := by
  cases fd with
  | none =>
    simp only [apply_format, Except.ok.injEq, Prod.mk.injEq] at h
    obtain ⟨h1, _⟩ := h
    subst h1
    exact ⟨rfl, rfl, rfl, rfl, rfl⟩
  | some fd =>
    cases ho : raw.output with
    | none => simp only [apply_format, ho] at h; exact absurd h (by simp)
    | some o =>
      simp only [apply_format, ho, Except.ok.injEq, Prod.mk.injEq] at h
      obtain ⟨h1, _⟩ := h
      subst h1
      refine ⟨?_, ?_, ?_, ?_, ?_⟩ <;> simp [apply_ite]

/-- When `resolve_parameters` resolves a format definition, the request has
an output configuration. -/
theorem resolve_parameters_output_some (env : Env) (raw : GenerateActionOptions)
    (model : ModelAction) (tools : List ToolAction) (fd : FormatDef)
    (h : resolve_parameters env raw = .ok (model, tools, some fd)) :
    ∃ o, raw.output = some o := by
  simp only [resolve_parameters] at h
  repeat' split at h
  all_goals first
    | exact ⟨_, by assumption⟩
    | simp_all

/-- After a successful parameter resolution, `apply_format` cannot crash. -/
theorem apply_format_ok_of_resolve (env : Env) (raw : GenerateActionOptions)
    (model : ModelAction) (tools : List ToolAction) (fd : Option FormatDef)
    (h : resolve_parameters env raw = .ok (model, tools, fd)) :
    ∃ out f, apply_format raw fd = .ok (out, f) := by
  cases fd with
  | none => exact ⟨raw, none, rfl⟩
  | some fd =>
    obtain ⟨o, ho⟩ := resolve_parameters_output_some env raw model tools fd h
    simp only [apply_format, ho]
    split <;> exact ⟨_, _, rfl⟩

/-- C4, amended: in `apply_format` the explicit per-request
`output.constrained` (including explicit `false`) overrides the Format's
constrained directive, but for the content type and the wire-format hint the
precedence is reversed - the Format's directive, when set, overwrites the
request's value, which survives only when the Format leaves the field
unset. -/
theorem c4_format_precedence (fd : FormatDef) (raw : GenerateActionOptions) (o : OutputOptions)
    (h : raw.output = some o) :
    ((apply_format raw (some fd)).toOption.bind (fun p => p.1.output)).map
        (fun oc => (oc.constrained, oc.content_type, oc.format)) =
      some ((if o.constrained = none then fd.config.constrained else o.constrained),
            (if fd.config.content_type = none then o.content_type else fd.config.content_type),
            (if fd.config.format = none then o.format else fd.config.format)) := by
  simp only [apply_format, h]
  split <;>
  · rcases hc : o.constrained with _ | c <;>
      rcases hfc : fd.config.constrained with _ | fc <;>
        rcases hct : fd.config.content_type with _ | ct <;>
          rcases hff : fd.config.format with _ | ff <;>
            simp [Except.toOption, hc, hfc, hct, hff]

/-- Witness for `c4_format_precedence` at the conflicting concrete format and
request. -/
theorem c4_format_precedence_witness :
    ((apply_format conflict_request (some conflict_fd)).toOption.bind (fun p => p.1.output)).map
        (fun oc => (oc.constrained, oc.content_type, oc.format)) =
      some ((if conflict_output.constrained = none then conflict_fd.config.constrained
             else conflict_output.constrained),
            (if conflict_fd.config.content_type = none then conflict_output.content_type
             else conflict_fd.config.content_type),
            (if conflict_fd.config.format = none then conflict_output.format
             else conflict_fd.config.format)) :=
  c4_format_precedence conflict_fd conflict_request conflict_output rfl

/-- C10: the caller's own middleware list is mutated (the context-injection
middleware is appended to it in place) exactly when the caller supplied a
non-empty list, the request carries docs, and the model lacks native context
support; a `None` or empty caller list is never touched, because
`if not middleware` rebinds the local name to a fresh list. -/
theorem c10_caller_list_mutation (l : List ModelMiddleware) (docs : List String) (s : Bool) :
    ((caller_middleware_after (some l) docs s ≠ some l) ↔
      (l.isEmpty = false ∧ docs.isEmpty = false ∧ s = false)) ∧
    (l.isEmpty = false ∧ docs.isEmpty = false ∧ s = false →
      caller_middleware_after (some l) docs s = some (l ++ [augment_with_context])) ∧
    caller_middleware_after none docs s = none := by
  have key : l ++ [augment_with_context] ≠ l := by
    intro hk
    have := congrArg List.length hk
    simp at this
  refine ⟨?_, ?_, rfl⟩
  · simp only [caller_middleware_after]
    cases hl : l.isEmpty <;> cases hd : docs.isEmpty <;> cases s <;>
      simp_all
  · rintro ⟨hl, hd, hs⟩
    simp only [caller_middleware_after, hl, hd, hs]
    simp

/-- Witness for `c10_caller_list_mutation`: a singleton caller list, a
doc-carrying request and a model without context support get the context
middleware appended in place. -/
theorem c10_caller_list_mutation_witness :
    caller_middleware_after (some [pass_mw]) ["d"] false =
      some ([pass_mw] ++ [augment_with_context]) :=
  (c10_caller_list_mutation [pass_mw] ["d"] false).2.1 ⟨rfl, rfl, rfl⟩

/-- C5, amended: whenever parameter resolution succeeds, the turn dispatches
through exactly one chain, built by appending (not prepending) the
context-injection middleware to the caller's middleware if and only if the
request carries auxiliary documents and the resolved model's declared
capability metadata does not include native context support. -/
theorem c5_context_injection (env : Env) (raw : GenerateActionOptions) (cb : Bool)
    (mi k : Nat) (mo : Option (List ModelMiddleware)) (co : Option Context)
    (model : ModelAction) (tools : List ToolAction) (fd : Option FormatDef)
    (h : resolve_parameters env raw = .ok (model, tools, fd)) :
    (generate_turn env raw cb mi k mo co).recs =
      [{ mws := (mo.getD []) ++
           (if !raw.docs.isEmpty && !(supports_context model) then [augment_with_context] else [])
         ctx := co }] := by
  obtain ⟨out, f, hf⟩ := apply_format_ok_of_resolve env raw model tools fd h
  have hd : out.docs = raw.docs := (apply_format_fields raw fd out f hf).2.1
  simp only [generate_turn, h, hf]
  simp only [effective_middleware, hd]
  split <;> simp

/-- Witness for `c5_context_injection`: the doc-carrying request with one
caller middleware gets the chain `[marker_mw, augment_with_context]`. -/
theorem c5_context_injection_witness :
    (generate_turn doc_env doc_request false 0 0 (some [marker_mw]) none).recs =
      [{ mws := ((some [marker_mw]).getD []) ++
           (if !doc_request.docs.isEmpty && !(supports_context plain_model) then
             [augment_with_context] else [])
         ctx := none }] :=
  c5_context_injection doc_env doc_request false 0 0 (some [marker_mw]) none
    plain_model [] none rfl

/-! The chunk accumulator lemmas. -/

/-- Once at least one chunk has been emitted, every further chunk repeats the
index of its predecessor when the roles agree and increments it by one when
they differ. -/
theorem run_chunks_chain_aux (pp : Bool) :
    ∀ (events : List (Role × GenerateResponseChunk)) (st : ChunkState)
      (w₀ : GenerateResponseChunkWrapper),
      w₀.role = st.chunk_role → w₀.index = st.message_index → st.prev_chunks ≠ [] →
      List.Chain' (fun a b => b.index = if b.role = a.role then a.index else a.index + 1)
        (w₀ :: (run_chunks pp st events).2) := by
  intro events
  induction events with
  | nil => intro st w₀ _ _ _; simp [run_chunks]
  | cons e rest ih =>
    intro st w₀ hr hi hp
    obtain ⟨r, c⟩ := e
    have hlen : 0 < st.prev_chunks.length := List.length_pos.mpr hp
    rw [run_chunks, List.chain'_cons]
    constructor
    · simp only [make_chunk]
      rw [hr, hi]
      by_cases hrr : r = st.chunk_role
      · simp [hrr]
      · simp [hrr, hlen]
    · apply ih
      · simp [make_chunk]
      · simp [make_chunk]
      · simp [make_chunk]

/-- Starting a turn with an empty chunk history, consecutive emitted chunks
share their index exactly when they share their role, and the index grows by
one at each role change. -/
theorem run_chunks_chain (pp : Bool) (st : ChunkState)
    (events : List (Role × GenerateResponseChunk)) (h0 : st.prev_chunks = []) :
    List.Chain' (fun a b => b.index = if b.role = a.role then a.index else a.index + 1)
      (run_chunks pp st events).2 := by
  cases events with
  | nil => simp [run_chunks]
  | cons e rest =>
    obtain ⟨r, c⟩ := e
    rw [run_chunks]
    apply run_chunks_chain_aux
    · simp [make_chunk]
    · simp [make_chunk]
    · simp [make_chunk]

/-- Each emitted chunk's snapshot is the starting history extended by the
chunks of the events strictly before it. -/
theorem run_chunks_snapshot (pp : Bool) :
    ∀ (events : List (Role × GenerateResponseChunk)) (st : ChunkState) (i : Nat)
      (hi : i < (run_chunks pp st events).2.length),
      ((run_chunks pp st events).2.get ⟨i, hi⟩).previous_chunks =
        st.prev_chunks ++ ((events.take i).map Prod.snd) := by
  intro events
  induction events with
  | nil => intro st i hi; simp [run_chunks] at hi
  | cons e rest ih =>
    intro st i hi
    obtain ⟨r, c⟩ := e
    cases i with
    | zero => simp [run_chunks, make_chunk]
    | succ n =>
      simp only [run_chunks] at hi ⊢
      rw [List.get_cons_succ]
      have hi'' : n < (run_chunks pp (make_chunk pp st r c).1 rest).2.length := by
        simpa using hi
      rw [ih _ n hi'']
      simp [make_chunk]

/-- C3, amended: within one turn (the chunk history starts empty), the chunk
index never increments between two consecutive chunks of the same role and
increments exactly once at each role transition; across a turn boundary the
index is advanced by exactly one regardless of role, and for the role
sequence [model, model, tool, model] with the last chunk belonging to the
next turn the emitted indices are [0, 0, 1, 2]. -/
theorem c3_chunk_indexing :
    (∀ (pp : Bool) (st : ChunkState) (events : List (Role × GenerateResponseChunk)),
        st.prev_chunks = [] →
        List.Chain' (fun a b => b.index = if b.role = a.role then a.index else a.index + 1)
          (run_chunks pp st events).2) ∧
    (generate_action (mk_env stream_model) 10 raw_base true 0 0 none none).emitted.map
        (fun c => (c.role, c.index)) =
      [(Role.model, 0), (Role.model, 0), (Role.tool, 1), (Role.model, 2)] := by
  exact ⟨fun pp st events h0 => run_chunks_chain pp st events h0, by decide⟩

/-- Witness for `c3_chunk_indexing` on the concrete within-turn event list
[model, model, tool]. -/
theorem c3_chunk_indexing_witness :
    List.Chain' (fun a b => b.index = if b.role = a.role then a.index else a.index + 1)
      (run_chunks false { chunk_role := Role.model, message_index := 0, prev_chunks := [] }
        [(Role.model, chunk_a), (Role.model, chunk_b), (Role.tool, chunk_d)]).2 :=
  c3_chunk_indexing.1 false
    { chunk_role := Role.model, message_index := 0, prev_chunks := [] }
    [(Role.model, chunk_a), (Role.model, chunk_b), (Role.tool, chunk_d)] rfl

/-- C8, amended: the chunk history and last-seen role are reinitialized on
every turn (each recursive call); within one turn each emitted chunk's
previous-chunks snapshot holds exactly the chunks emitted earlier in that
turn (the history grows monotonically within the turn), and only the message
index persists across turns: in the two-turn streaming exchange the emitted
snapshot lengths are [0, 1, 2, 0] while the indices [0, 0, 1, 2] keep
increasing. -/
theorem c8_chunk_history :
    (∀ (pp : Bool) (st : ChunkState) (events : List (Role × GenerateResponseChunk)) (i : Nat)
        (hi : i < (run_chunks pp st events).2.length),
        ((run_chunks pp st events).2.get ⟨i, hi⟩).previous_chunks =
          st.prev_chunks ++ ((events.take i).map Prod.snd)) ∧
    (generate_action (mk_env stream_model) 10 raw_base true 0 0 none none).emitted.map
        (fun c => (c.previous_chunks.length, c.index)) =
      [(0, 0), (1, 0), (2, 1), (0, 2)] := by
  exact ⟨fun pp st events i hi => run_chunks_snapshot pp events st i hi, by decide⟩

/-- Witness for `c8_chunk_history`: the third chunk of a turn carries exactly
the first two chunks in its snapshot. -/
theorem c8_chunk_history_witness :
    ((run_chunks false { chunk_role := Role.model, message_index := 0, prev_chunks := [] }
        [(Role.model, chunk_a), (Role.model, chunk_b), (Role.tool, chunk_d)]).2.get
      ⟨2, by decide⟩).previous_chunks =
      ([] : List GenerateResponseChunk) ++
        (([(Role.model, chunk_a), (Role.model, chunk_b), (Role.tool, chunk_d)].take 2).map
          Prod.snd) :=
  c8_chunk_history.1 false
    { chunk_role := Role.model, message_index := 0, prev_chunks := [] }
    [(Role.model, chunk_a), (Role.model, chunk_b), (Role.tool, chunk_d)] 2 (by decide)

/-! Error-shape lemmas: which constructors each component can raise. -/

/-- The tool loop only raises the not-found error or the `None`-crash. -/
theorem tool_loop_error_shape (td : List (String × Option ToolAction)) :
    ∀ (trs : List ToolRequestT) (e : GenErr), (tool_loop td trs).2 = .error e →
      (∃ n, e = .toolResolution n) ∨ (∃ n, e = .noneCrash n) := by
  intro trs
  induction trs with
  | nil => intro e h; simp [tool_loop] at h
  | cons tr rest ih =>
    intro e h
    simp only [tool_loop] at h
    cases hl : td.lookup tr.name with
    | none => rw [hl] at h; simp at h; exact .inl ⟨tr.name, h.symm⟩
    | some ot =>
      cases ot with
      | none => rw [hl] at h; simp at h; exact .inr ⟨tr.name, h.symm⟩
      | some t =>
        rw [hl] at h
        simp only at h
        cases hrec : (tool_loop td rest).2 with
        | error e' => rw [hrec] at h; simp at h; subst h; exact ih e' hrec
        | ok parts => rw [hrec] at h; simp at h

/-- `resolve_tool_requests` only raises the not-found error or the
`None`-crash. -/
theorem resolve_tool_requests_error_shape (env : Env) (request : GenerateActionOptions)
    (message : Message) (e : GenErr)
    (h : (resolve_tool_requests env request message).result = .error e) :
    (∃ n, e = .toolResolution n) ∨ (∃ n, e = .noneCrash n) := by
  simp only [resolve_tool_requests] at h
  cases hres : (tool_loop (request.tools.map (fun n => (n, resolve_tool env n)))
      (message.content.filterMap get_tool_request)).2 with
  | error e' =>
    rw [hres] at h
    simp at h
    subst h
    exact tool_loop_error_shape _ _ e' hres
  | ok parts => rw [hres] at h; simp at h

/-- `resolve_tools_list` only raises configuration errors. -/
theorem resolve_tools_list_error_shape (env : Env) :
    ∀ (l : List String) (e : GenErr), resolve_tools_list env l = .error e →
      ∃ m, e = .configuration m := by
  intro l
  induction l with
  | nil => intro e h; simp [resolve_tools_list] at h
  | cons n rest ih =>
    intro e h
    simp only [resolve_tools_list] at h
    cases hl : env.registry.tools.lookup n with
    | none => rw [hl] at h; simp at h; exact ⟨_, h.symm⟩
    | some t =>
      rw [hl] at h
      simp only at h
      cases hrec : resolve_tools_list env rest with
      | error e' => rw [hrec] at h; simp at h; subst h; exact ih e' hrec
      | ok ts => rw [hrec] at h; simp at h

/-- `resolve_parameters` only raises configuration errors. -/
theorem resolve_parameters_error_shape (env : Env) (raw : GenerateActionOptions) (e : GenErr)
    (h : resolve_parameters env raw = .error e) : ∃ m, e = .configuration m := by
  simp only [resolve_parameters] at h
  repeat' split at h
  all_goals simp at h
  all_goals first
    | exact ⟨_, h.symm⟩
    | (subst h; exact resolve_tools_list_error_shape env raw.tools _ (by assumption))

/-- `apply_format` only raises the attribute crash. -/
theorem apply_format_error_shape (raw : GenerateActionOptions) (fd : Option FormatDef)
    (e : GenErr) (h : apply_format raw fd = .error e) : ∃ m, e = .attrCrash m := by
  cases fd with
  | none => simp [apply_format] at h
  | some fd =>
    cases ho : raw.output with
    | none =>
      simp only [apply_format, ho] at h
      simp at h
      exact ⟨_, h.symm⟩
    | some o =>
      simp only [apply_format, ho] at h
      simp at h

/-! Turn-step analysis lemmas. -/

/-- When a turn continues, the turn counter advances by exactly one, the
effective turn bound of the next request equals the current one, and the
continuation only happens strictly below the bound. -/
theorem turn_decision_next (env : Env) (raw : GenerateActionOptions) (cb pp : Bool)
    (req : GenerateRequest) (resp : GenerateResponseWrapper) (st : ChunkState) (k : Nat)
    (req' : GenerateActionOptions) (mi' ct' : Nat)
    (h : (turn_decision env raw cb pp req resp st k).1 = .next req' mi' ct') :
    ct' = k + 1 ∧ effective_max_turns req' = effective_max_turns raw ∧
      k + 1 ≤ effective_max_turns raw := by
  simp only [turn_decision] at h
  split at h
  · split at h <;> simp at h
  · split at h
    · simp at h
    · split at h
      · simp at h
      · split at h
        · simp at h
        · simp only [TurnNext.next.injEq] at h
          obtain ⟨h1, _, h3⟩ := h
          refine ⟨h3.symm, ?_, by omega⟩
          rw [← h1]
          simp [apply_transfer_preamble, effective_max_turns]

/-- When a turn aborts, the current turn count has reached the bound. -/
theorem turn_decision_aborted (env : Env) (raw : GenerateActionOptions) (cb pp : Bool)
    (req : GenerateRequest) (resp : GenerateResponseWrapper) (st : ChunkState) (k : Nat)
    (m : Nat)
    (h : (turn_decision env raw cb pp req resp st k).1 = .done (.error (.aborted m))) :
    effective_max_turns raw < k + 1 := by
  simp only [turn_decision] at h
  split at h
  · split at h <;> simp at h
  · split at h
    · omega
    · split at h
      · rename_i herr
        simp only [TurnNext.done.injEq, Except.error.injEq] at h
        rcases resolve_tool_requests_error_shape env raw resp.message _ herr with ⟨n, hn⟩ |
            ⟨n, hn⟩ <;>
          simp [hn] at h
      · split at h <;> simp at h

/-- A turn dispatches at most once. -/
theorem generate_turn_recs_len (env : Env) (raw : GenerateActionOptions) (cb : Bool)
    (mi k : Nat) (mo : Option (List ModelMiddleware)) (co : Option Context) :
    (generate_turn env raw cb mi k mo co).recs.length ≤ 1 := by
  simp only [generate_turn]
  split
  · simp
  · split
    · simp
    · simp

/-- The dispatch records of a turn are either absent (failure before the
model call) or a single record whose chain is the effective middleware for
some docs and support flag and whose context is the given one. -/
theorem generate_turn_recs_shape (env : Env) (raw : GenerateActionOptions) (cb : Bool)
    (mi k : Nat) (mo : Option (List ModelMiddleware)) (co : Option Context) :
    (generate_turn env raw cb mi k mo co).recs = [] ∨
      ∃ d s, (generate_turn env raw cb mi k mo co).recs =
        [{ mws := effective_middleware mo d s, ctx := co }] := by
  simp only [generate_turn]
  split
  · exact .inl rfl
  · split
    · exact .inl rfl
    · exact .inr ⟨_, _, rfl⟩

/-- A continuing turn has dispatched exactly once, advances the turn counter
by one, preserves the effective turn bound, and only continues strictly
below the bound. -/
theorem generate_turn_next (env : Env) (raw : GenerateActionOptions) (cb : Bool)
    (mi k : Nat) (mo : Option (List ModelMiddleware)) (co : Option Context)
    (req' : GenerateActionOptions) (mi' ct' : Nat)
    (h : (generate_turn env raw cb mi k mo co).step = .next req' mi' ct') :
    ct' = k + 1 ∧ effective_max_turns req' = effective_max_turns raw ∧
      (generate_turn env raw cb mi k mo co).recs.length = 1 ∧
      k + 1 ≤ effective_max_turns raw := by
  cases hr : resolve_parameters env raw with
  | error e =>
    rw [generate_turn] at h
    rw [hr] at h
    simp at h
  | ok triple =>
    obtain ⟨model, tools, fd⟩ := triple
    obtain ⟨out, f, hf⟩ := apply_format_ok_of_resolve env raw model tools fd hr
    have hmax : out.max_turns = raw.max_turns := (apply_format_fields raw fd out f hf).1
    rw [generate_turn] at h ⊢
    rw [hr] at h ⊢
    simp only [hf] at h ⊢
    obtain ⟨h1, h2, h3⟩ := turn_decision_next env out cb f.isSome _ _ _ k req' mi' ct' h
    have hsame : effective_max_turns out = effective_max_turns raw := by
      simp [effective_max_turns, hmax]
    exact ⟨h1, by rw [h2, hsame], by simp, by omega⟩

/-- An aborting turn has dispatched exactly once and the turn count has
reached the effective bound of the request it was given. -/
theorem generate_turn_aborted (env : Env) (raw : GenerateActionOptions) (cb : Bool)
    (mi k : Nat) (mo : Option (List ModelMiddleware)) (co : Option Context) (m : Nat)
    (h : (generate_turn env raw cb mi k mo co).step = .done (.error (.aborted m))) :
    (generate_turn env raw cb mi k mo co).recs.length = 1 ∧
      effective_max_turns raw < k + 1 := by
  cases hr : resolve_parameters env raw with
  | error e =>
    rw [generate_turn] at h
    rw [hr] at h
    simp only at h
    obtain ⟨n, hn⟩ := resolve_parameters_error_shape env raw e hr
    rw [hn] at h
    simp at h
  | ok triple =>
    obtain ⟨model, tools, fd⟩ := triple
    cases hf : apply_format raw fd with
    | error e =>
      rw [generate_turn] at h
      rw [hr] at h
      simp only [hf] at h
      obtain ⟨n, hn⟩ := apply_format_error_shape raw fd e hf
      rw [hn] at h
      simp at h
    | ok pair =>
      obtain ⟨out, f⟩ := pair
      have hmax : out.max_turns = raw.max_turns := (apply_format_fields raw fd out f hf).1
      rw [generate_turn] at h ⊢
      rw [hr] at h ⊢
      simp only [hf] at h ⊢
      have hb := turn_decision_aborted env out cb f.isSome _ _ _ k m h
      have hsame : effective_max_turns out = effective_max_turns raw := by
        simp [effective_max_turns, hmax]
      exact ⟨by simp, by omega⟩

/-- The turn-count induction: from turn `k` on, a `generate_action` call
dispatches at most `max (N + 1 - k) 1` times, where `N` is the request's
effective turn bound, and dispatches exactly that often when it ends in the
`ABORTED` failure. -/
theorem generate_action_turn_bound (env : Env) :
    ∀ (fuel : Nat) (raw : GenerateActionOptions) (cb : Bool) (mi k : Nat)
      (mo : Option (List ModelMiddleware)) (co : Option Context),
      (generate_action env fuel raw cb mi k mo co).turns.length ≤
        max (effective_max_turns raw + 1 - k) 1 ∧
      (is_aborted (generate_action env fuel raw cb mi k mo co).result = true →
        (generate_action env fuel raw cb mi k mo co).turns.length =
          max (effective_max_turns raw + 1 - k) 1) := by
  intro fuel
  induction fuel with
  | zero =>
    intro raw cb mi k mo co
    constructor
    · exact Nat.zero_le _
    · intro hab
      simp [generate_action, is_aborted] at hab
  | succ n ih =>
    intro raw cb mi k mo co
    cases hstep : (generate_turn env raw cb mi k mo co).step with
    | done r =>
      have hturn : (generate_action env (n + 1) raw cb mi k mo co).turns =
          (generate_turn env raw cb mi k mo co).recs := by
        simp only [generate_action, hstep]
      have hres : (generate_action env (n + 1) raw cb mi k mo co).result = r := by
        simp only [generate_action, hstep]
      constructor
      · rw [hturn]
        have h1 := generate_turn_recs_len env raw cb mi k mo co
        have h2 : 1 ≤ max (effective_max_turns raw + 1 - k) 1 := le_max_right _ _
        omega
      · intro hab
        rw [hres] at hab
        have habort : ∃ mm, r = .error (.aborted mm) := by
          cases r with
          | ok w => simp [is_aborted] at hab
          | error e => cases e <;> simp [is_aborted] at hab <;> exact ⟨_, rfl⟩
        obtain ⟨mm, rfl⟩ := habort
        obtain ⟨hl, hk⟩ := generate_turn_aborted env raw cb mi k mo co mm hstep
        rw [hturn, hl]
        omega
    | next req' mi' ct' =>
      obtain ⟨hct, hmax, hlen, hle⟩ := generate_turn_next env raw cb mi k mo co req' mi' ct' hstep
      subst hct
      have hturn : (generate_action env (n + 1) raw cb mi k mo co).turns =
          (generate_turn env raw cb mi k mo co).recs ++
            (generate_action env n req' cb mi' (k + 1) none none).turns := by
        simp only [generate_action, hstep]
      have hres : (generate_action env (n + 1) raw cb mi k mo co).result =
          (generate_action env n req' cb mi' (k + 1) none none).result := by
        simp only [generate_action, hstep]
      have ihh := ih req' cb mi' (k + 1) none none
      rw [hmax] at ihh
      constructor
      · rw [hturn]
        rw [List.length_append, hlen]
        have h1 := ihh.1
        omega
      · intro hab
        rw [hres] at hab
        have h2 := ihh.2 hab
        rw [hturn]
        rw [List.length_append, hlen, h2]
        omega

/-- C1, amended: with an effective turn bound of `N` (the request's
`max_turns` override, else the default of 5), `generate_action` performs at
most `N + 1` model invocations, and when it raises the `ABORTED` failure it
has performed exactly `N + 1` of them - one more than the claim states: the
abort fires only after the `(N + 1)`-th reply, the first `N` tool-requesting
replies each being followed by a round of tool execution. -/
theorem c1_turn_bound (env : Env) (fuel : Nat) (raw : GenerateActionOptions) (cb : Bool)
    (mo : Option (List ModelMiddleware)) (co : Option Context) :
    (generate_action env fuel raw cb 0 0 mo co).turns.length ≤ effective_max_turns raw + 1 ∧
    (is_aborted (generate_action env fuel raw cb 0 0 mo co).result = true →
      (generate_action env fuel raw cb 0 0 mo co).turns.length =
        effective_max_turns raw + 1) := by
  have h := generate_action_turn_bound env fuel raw cb 0 0 mo co
  have hm : max (effective_max_turns raw + 1 - 0) 1 = effective_max_turns raw + 1 := by omega
  rw [hm] at h
  exact h

/-- Witness for `c1_turn_bound` at the always-tool-requesting model with
`max_turns = 1`: the abort is raised with exactly two dispatches. -/
theorem c1_turn_bound_witness :
    (generate_action (mk_env loop_model) 10 { raw_base with max_turns := some 1 }
        false 0 0 none none).turns.length =
      effective_max_turns { raw_base with max_turns := some 1 } + 1 :=
  (c1_turn_bound (mk_env loop_model) 10 { raw_base with max_turns := some 1 }
    false none none).2 (by decide)

/-- Turns run with no caller middleware and no context dispatch with a
`none` context and at most the freshly re-added context-injection
middleware. -/
theorem generate_action_bare_turns (env : Env) :
    ∀ (fuel : Nat) (raw : GenerateActionOptions) (cb : Bool) (mi k : Nat),
      ∀ rec ∈ (generate_action env fuel raw cb mi k none none).turns,
        rec.ctx = none ∧ rec.mws.length ≤ 1 := by
  intro fuel
  induction fuel with
  | zero =>
    intro raw cb mi k rec hrec
    simp [generate_action] at hrec
  | succ n ih =>
    intro raw cb mi k rec hrec
    have hone : ∀ r ∈ (generate_turn env raw cb mi k none none).recs,
        r.ctx = none ∧ r.mws.length ≤ 1 := by
      intro r hr
      rcases generate_turn_recs_shape env raw cb mi k none none with hs | ⟨d, s, hs⟩
      · rw [hs] at hr; simp at hr
      · rw [hs] at hr
        simp only [List.mem_singleton] at hr
        subst hr
        refine ⟨rfl, ?_⟩
        simp only [effective_middleware, Option.getD]
        split <;> simp
    cases hstep : (generate_turn env raw cb mi k none none).step with
    | done r =>
      have hturn : (generate_action env (n + 1) raw cb mi k none none).turns =
          (generate_turn env raw cb mi k none none).recs := by
        simp only [generate_action, hstep]
      rw [hturn] at hrec
      exact hone rec hrec
    | next req' mi' ct' =>
      have hturn : (generate_action env (n + 1) raw cb mi k none none).turns =
          (generate_turn env raw cb mi k none none).recs ++
            (generate_action env n req' cb mi' ct' none none).turns := by
        simp only [generate_action, hstep]
      rw [hturn] at hrec
      rcases List.mem_append.mp hrec with hrec | hrec
      · exact hone rec hrec
      · exact ih req' cb mi' ct' rec hrec

/-- C9, amended: the recursive continuation passes neither the caller's
middleware list nor the context, so every model invocation after the first
is dispatched with a `none` context and without any caller-supplied
middleware; its chain is not always empty, though - it holds at most the
context-injection middleware, freshly re-appended by the recursive
invocation when the request carries docs and the model lacks native context
support. -/
theorem c9_continuation_drops_middleware_and_context (env : Env) (fuel : Nat)
    (raw : GenerateActionOptions) (cb : Bool) (mi k : Nat)
    (mo : Option (List ModelMiddleware)) (co : Option Context) :
    ∀ rec ∈ ((generate_action env fuel raw cb mi k mo co).turns.drop 1),
      rec.ctx = none ∧ rec.mws.length ≤ 1 := by
  intro rec hrec
  cases fuel with
  | zero => simp [generate_action] at hrec
  | succ n =>
    cases hstep : (generate_turn env raw cb mi k mo co).step with
    | done r =>
      have hturn : (generate_action env (n + 1) raw cb mi k mo co).turns =
          (generate_turn env raw cb mi k mo co).recs := by
        simp only [generate_action, hstep]
      rw [hturn] at hrec
      have hlen := generate_turn_recs_len env raw cb mi k mo co
      rw [List.drop_eq_nil_of_le hlen] at hrec
      simp at hrec
    | next req' mi' ct' =>
      have hturn : (generate_action env (n + 1) raw cb mi k mo co).turns =
          (generate_turn env raw cb mi k mo co).recs ++
            (generate_action env n req' cb mi' ct' none none).turns := by
        simp only [generate_action, hstep]
      rw [hturn] at hrec
      rcases generate_turn_recs_shape env raw cb mi k mo co with hs | ⟨d, s, hs⟩
      · rw [hs] at hrec
        simp only [List.nil_append] at hrec
        exact generate_action_bare_turns env n req' cb mi' ct' rec
          (List.mem_of_mem_drop hrec)
      · rw [hs] at hrec
        simp only [List.singleton_append, List.drop_succ_cons, List.drop_zero] at hrec
        exact generate_action_bare_turns env n req' cb mi' ct' rec hrec

/-- Witness for `c9_continuation_drops_middleware_and_context`: the second
dispatch of the two-turn doc-carrying exchange. -/
theorem c9_continuation_witness :
    ({ mws := [augment_with_context], ctx := none } : TurnRec).ctx = none ∧
    ({ mws := [augment_with_context], ctx := none } : TurnRec).mws.length ≤ 1 :=
  c9_continuation_drops_middleware_and_context (mk_env loop_model) 10 loop_doc_request
    false 0 0 (some [pass_mw]) (some ([] : Context))
    { mws := [augment_with_context], ctx := none }
    (by
      have h : ((generate_action (mk_env loop_model) 10 loop_doc_request false 0 0
          (some [pass_mw]) (some ([] : Context))).turns.drop 1) =
          [{ mws := [augment_with_context], ctx := none }] := rfl
      rw [h]
      exact List.mem_singleton.mpr rfl)

/-! Tool-resolution lemmas. -/

/-- Whether a result is the tool-resolution failure
(the `RuntimeError` of `resolve_tool_requests`). -/
def is_tool_resolution_error {α : Type} : Except GenErr α → Bool
  | .error (.toolResolution _) => true
  | _ => false

/-- Looking up a name in the dict built over a name list yields the resolver's
answer exactly for listed names. -/
theorem lookup_map_self (f : String → Option ToolAction) :
    ∀ (l : List String) (x : String),
      (l.map (fun n => (n, f n))).lookup x = if x ∈ l then some (f x) else none := by
  intro l
  induction l with
  | nil => intro x; simp [List.lookup]
  | cons a rest ih =>
    intro x
    by_cases hx : x = a
    · subst hx
      simp [List.lookup]
    · have hbeq : (x == a) = false := beq_eq_false_iff_ne.mpr hx
      simp [List.lookup, hbeq, hx, ih x]

/-- Every executed tool invocation was found in the dict. -/
theorem tool_loop_executed_mem (td : List (String × Option ToolAction)) :
    ∀ (trs : List ToolRequestT) (e : String × String), e ∈ (tool_loop td trs).1 →
      (td.lookup e.1).isSome = true := by
  intro trs
  induction trs with
  | nil => intro e he; simp [tool_loop] at he
  | cons tr rest ih =>
    intro e he
    simp only [tool_loop] at he
    cases hl : td.lookup tr.name with
    | none => rw [hl] at he; simp at he
    | some ot =>
      cases ot with
      | none => rw [hl] at he; simp at he
      | some t =>
        rw [hl] at he
        simp only [List.mem_cons] at he
        rcases he with he | he
        · rw [he]
          simp [hl]
        · exact ih e he

/-- When some requested tool name is missing from the dict and no dict entry
is a `None`, the loop fails with the not-found error for an unlisted name. -/
theorem tool_loop_error_of_missing (td : List (String × Option ToolAction)) :
    ∀ (trs : List ToolRequestT),
      (∃ tr ∈ trs, td.lookup tr.name = none) →
      (∀ tr ∈ trs, ¬ td.lookup tr.name = some none) →
      ∃ u, td.lookup u = none ∧ (tool_loop td trs).2 = .error (.toolResolution u) := by
  intro trs
  induction trs with
  | nil => intro hex _; simp at hex
  | cons tr rest ih =>
    intro hex hnone
    cases hl : td.lookup tr.name with
    | none => exact ⟨tr.name, hl, by simp [tool_loop, hl]⟩
    | some ot =>
      cases ot with
      | none => exact absurd hl (hnone tr (List.mem_cons_self tr rest))
      | some t =>
        have hex' : ∃ tr' ∈ rest, td.lookup tr'.name = none := by
          obtain ⟨tr', htr', h0⟩ := hex
          rcases List.mem_cons.mp htr' with h | h
          · subst h
            rw [hl] at h0
            exact absurd h0 (by simp)
          · exact ⟨tr', h, h0⟩
        obtain ⟨u, hu, herr⟩ :=
          ih hex' (fun tr' h' => hnone tr' (List.mem_cons_of_mem tr h'))
        refine ⟨u, hu, ?_⟩
        simp [tool_loop, hl, herr]

/-- C7: whenever the model's message holds a tool-request whose name is not
among the request's resolvable tool names (and the listed names themselves
resolve, as `resolve_parameters` guarantees inside `generate_action`),
`resolve_tool_requests` fails with the tool-resolution error, and every tool
that was executed bears a listed name - in particular no tool is ever
executed for the unresolvable tool-request. -/
theorem c7_unresolvable_tool (env : Env) (request : GenerateActionOptions) (message : Message)
    (tr : ToolRequestT)
    (h1 : Part.toolRequest tr ∈ message.content)
    (h2 : tr.name ∉ request.tools)
    (h3 : ∀ n ∈ request.tools, (resolve_tool env n).isSome = true) :
    is_tool_resolution_error (resolve_tool_requests env request message).result = true ∧
    ∀ e ∈ (resolve_tool_requests env request message).executed, e.1 ∈ request.tools := by
  have hmem : tr ∈ message.content.filterMap get_tool_request :=
    List.mem_filterMap.mpr ⟨Part.toolRequest tr, h1, rfl⟩
  have hlk : ∀ x, (request.tools.map (fun n => (n, resolve_tool env n))).lookup x =
      if x ∈ request.tools then some (resolve_tool env x) else none :=
    fun x => lookup_map_self (resolve_tool env) request.tools x
  have hex : ∃ tr' ∈ message.content.filterMap get_tool_request,
      (request.tools.map (fun n => (n, resolve_tool env n))).lookup tr'.name = none :=
    ⟨tr, hmem, by rw [hlk tr.name]; simp [h2]⟩
  have hnone : ∀ tr' ∈ message.content.filterMap get_tool_request,
      ¬ (request.tools.map (fun n => (n, resolve_tool env n))).lookup tr'.name = some none := by
    intro tr' _ hbad
    rw [hlk tr'.name] at hbad
    by_cases hm : tr'.name ∈ request.tools
    · rw [if_pos hm] at hbad
      have hs := h3 tr'.name hm
      simp only [Option.some.injEq] at hbad
      rw [hbad] at hs
      simp at hs
    · rw [if_neg hm] at hbad
      exact absurd hbad (by simp)
  obtain ⟨u, hu, herr⟩ := tool_loop_error_of_missing _ _ hex hnone
  constructor
  · simp only [resolve_tool_requests, herr]
    rfl
  · intro e he
    simp only [resolve_tool_requests] at he
    have hsome := tool_loop_executed_mem _ _ e he
    rw [hlk e.1] at hsome
    by_cases hm : e.1 ∈ request.tools
    · exact hm
    · rw [if_neg hm] at hsome
      simp at hsome

/-- A model reply requesting the unregistered tool name `u`. -/
def unknown_reply : Message :=
  { role := Role.model
    content := [Part.toolRequest { name := "u", ref := none, input := "x" }] }

/-- Witness for `c7_unresolvable_tool`: requesting `u` when only `t` is
registered fails with the tool-resolution error. -/
theorem c7_unresolvable_tool_witness :
    is_tool_resolution_error
        (resolve_tool_requests (mk_env plain_model) raw_base unknown_reply).result = true :=
  (c7_unresolvable_tool (mk_env plain_model) raw_base unknown_reply
    { name := "u", ref := none, input := "x" } (by decide) (by decide) (by decide)).1

/-- With no tool-request parts in the reply, the turn is terminal: it
validates the reply against the request's declared output schema and either
returns the wrapped response unchanged or fails with the schema-validation
error. -/
theorem turn_decision_no_tools (env : Env) (raw : GenerateActionOptions) (cb pp : Bool)
    (req : GenerateRequest) (resp : GenerateResponseWrapper) (st : ChunkState) (k : Nat)
    (h2 : resp.message.content.filter is_tool_request = []) :
    (turn_decision env raw cb pp req resp st k).1 =
      (if env.validateSchema req.output.schema_ resp.message then .done (.ok resp)
       else .done (.error .schemaFailure)) := by
  simp only [turn_decision, h2]
  cases hv : env.validateSchema req.output.schema_ resp.message <;> simp [hv]

/-- C6: when the model's reply holds no tool-request part, `generate_action`
returns after exactly one model invocation, the returned response's message
is the model's raw message (the formatter-parsed equivalent stays reachable
through the wrapper's parser), and the reply is validated against the
declared output schema before being returned - a failed validation raises
the schema failure instead. -/
theorem c6_single_turn (env : Env) (raw : GenerateActionOptions) (cb : Bool)
    (mo : Option (List ModelMiddleware)) (co : Option Context) (fuel : Nat)
    (m : Message) (rq : GenerateRequest)
    (h1 : (generate_turn env raw cb 0 0 mo co).reply = some m)
    (h2 : m.content.filter is_tool_request = [])
    (h3 : (generate_turn env raw cb 0 0 mo co).built_request = some rq) :
    (generate_action env (fuel + 1) raw cb 0 0 mo co).turns.length = 1 ∧
    (env.validateSchema rq.output.schema_ m = true →
      (generate_action env (fuel + 1) raw cb 0 0 mo co).result.map (fun w => w.message) =
        .ok m) ∧
    (env.validateSchema rq.output.schema_ m = false →
      (generate_action env (fuel + 1) raw cb 0 0 mo co).result = .error .schemaFailure) := by
  cases hr : resolve_parameters env raw with
  | error e =>
    simp only [generate_turn, hr] at h1
    exact absurd h1 (by simp)
  | ok triple =>
    obtain ⟨model, tools, fd⟩ := triple
    cases hf : apply_format raw fd with
    | error e =>
      simp only [generate_turn, hr, hf] at h1
      exact absurd h1 (by simp)
    | ok pair =>
      obtain ⟨out, f⟩ := pair
      simp only [generate_turn, hr, hf, mk_response_wrapper, Option.some.injEq] at h1 h3
      rw [h3] at h1
      have hstep : (generate_turn env raw cb 0 0 mo co).step =
          (if env.validateSchema rq.output.schema_ m then
            .done (.ok (mk_response_wrapper
              (dispatch model cb (effective_middleware mo out.docs (supports_context model))
                rq co).resp rq f.isSome))
          else .done (.error .schemaFailure)) := by
        simp only [generate_turn, hr, hf]
        rw [turn_decision_no_tools]
        · rw [h3]
          simp [mk_response_wrapper, h1]
        · rw [h3]
          simp [mk_response_wrapper, h1, h2]
      have hrecs : (generate_turn env raw cb 0 0 mo co).recs.length = 1 := by
        simp only [generate_turn, hr, hf]
        rfl
      have hturn : (generate_action env (fuel + 1) raw cb 0 0 mo co).turns =
          (generate_turn env raw cb 0 0 mo co).recs := by
        cases hv : env.validateSchema rq.output.schema_ m <;>
          simp [generate_action, hstep, hv]
      have hres : (generate_action env (fuel + 1) raw cb 0 0 mo co).result =
          (if env.validateSchema rq.output.schema_ m then
            .ok (mk_response_wrapper
              (dispatch model cb (effective_middleware mo out.docs (supports_context model))
                rq co).resp rq f.isSome)
          else .error .schemaFailure) := by
        cases hv : env.validateSchema rq.output.schema_ m <;>
          simp [generate_action, hstep, hv]
      refine ⟨by rw [hturn]; exact hrecs, ?_, ?_⟩
      · intro hv
        rw [hres, if_pos hv]
        simp [mk_response_wrapper, h1, Except.map]
      · intro hv
        rw [hres, if_neg (by simp [hv])]

/-- The normalized request of the terminal single-turn scenario. -/
def c6_request : GenerateRequest :=
  action_to_generate_request raw_base [simple_tool] plain_model

/-- Witness for `c6_single_turn`: the plain text reply returns in one turn
with the raw message, the schema validator accepting. -/
theorem c6_single_turn_witness :
    (generate_action (mk_env plain_model) 10 raw_base false 0 0 none none).turns.length = 1 ∧
    (generate_action (mk_env plain_model) 10 raw_base false 0 0 none none).result.map
      (fun w => w.message) = .ok text_reply :=
  ⟨(c6_single_turn (mk_env plain_model) raw_base false none none 9 text_reply c6_request
      rfl rfl rfl).1,
   (c6_single_turn (mk_env plain_model) raw_base false none none 9 text_reply c6_request
      rfl rfl rfl).2.1 rfl⟩

end Genkit
